import Mathlib

/-!
Verification of the kernel recommendation engine of Nephyra
(src/modules/kernel_check.rs), as a shallow embedding: Rust string
operations are modelled on `List Char`, the stateful `run` flow is
modelled as pure functions over an explicit environment of probe
results, and the scoring function is embedded component-wise
(score / reasons / warning / headers flag), mirroring the source's
four independent accumulators.
-/

set_option maxRecDepth 4000

/-! ## String primitives modelling Rust `str` operations -/

/-- `listLeads pat s`: `pat` occurs at the start of `s`
(models the prefix test underlying Rust `str::starts_with`). -/
def listLeads : List Char → List Char → Bool
  | [], _ => true
  | _ :: _, [] => false
  | a :: as, b :: bs => a == b && listLeads as bs

/-- `listWithin pat s`: `pat` occurs contiguously somewhere in `s`
(models Rust `str::contains` with a string pattern). -/
def listWithin (pat : List Char) : List Char → Bool
  | [] => listLeads pat []
  | c :: cs => listLeads pat (c :: cs) || listWithin pat cs

/-- Rust `s.contains(pat)`. -/
def strContains (s pat : String) : Bool := listWithin pat.data s.data

/-- Rust `s.starts_with(pre)`. -/
def strStarts (s pre : String) : Bool := listLeads pre.data s.data

/-- Rust `s.to_lowercase()` (ASCII-faithful model). -/
def lowerStr (s : String) : String := String.mk (s.data.map Char.toLower)

/-- Rust `Vec::join(sep)` on strings. -/
def joinSep (sep : String) : List String → String
  | [] => ""
  | [x] => x
  | x :: xs => x ++ sep ++ joinSep sep xs

/-- Splitter on a character predicate; pieces between separator characters,
in order, possibly empty. -/
def splitCharsAux (p : Char → Bool) : List Char → List Char → List (List Char)
  | [], acc => [acc.reverse]
  | c :: cs, acc =>
    if p c then acc.reverse :: splitCharsAux p cs []
    else splitCharsAux p cs (c :: acc)

/-- Rust `str::split_whitespace`: maximal non-whitespace runs, empties dropped. -/
def splitWs (s : String) : List String :=
  ((splitCharsAux (fun c => c.isWhitespace) s.data []).filter
    (fun l => !l.isEmpty)).map String.mk

/-- Rust `str::split(c)` collected to a vector. -/
def splitOnChar (c : Char) (s : String) : List String :=
  (splitCharsAux (fun a => a == c) s.data []).map String.mk

/-- Rust `str::trim`. -/
def trimStr (s : String) : String :=
  String.mk (((s.data.dropWhile Char.isWhitespace).reverse.dropWhile
    Char.isWhitespace).reverse)

/-- Remove every (left-to-right, non-overlapping) occurrence of `pat`;
fuelled so the recursion is structural (each step consumes at least one
character, so fuel `s.length` never runs out). -/
def replaceDropAux (pat : List Char) : Nat → List Char → List Char
  | _, [] => []
  | 0, s => s
  | fuel + 1, c :: cs =>
    if listLeads pat (c :: cs) then replaceDropAux pat fuel (cs.drop (pat.length - 1))
    else c :: replaceDropAux pat fuel cs

def replaceDrop (pat s : List Char) : List Char := replaceDropAux pat s.length s

/-- Rust `s.replace(pat, "")`. -/
def strReplaceEmpty (s pat : String) : String :=
  String.mk (replaceDrop pat.data s.data)

example : strContains "linux-zen" "zen" = true := by decide
example : strContains "linux-lts" "rt" = false := by decide
example : lowerStr "LINux" = "linux" := by decide
example : splitWs "  a  bc d " = ["a", "bc", "d"] := by decide
example : splitOnChar '/' "system/linux" = ["system", "linux"] := by decide
example : trimStr "  The Linux kernel " = "The Linux kernel" := by decide
example : strReplaceEmpty "[installed] The X" "[installed]" = " The X" := by decide
example : strStarts "linux-lts" "linux-" = true := by decide

/-! ## Data model (kernel_check.rs structs) -/

/-- `KernelRepoInfo` (kernel_check.rs): one entry of the available-kernel
listing. -/
structure KernelRepoInfo where
  name : String
  version : String
  description : String
  repo : String
deriving DecidableEq

/-- `KernelInfo` (kernel_check.rs): a catalog candidate. -/
structure KernelInfo where
  name : String
  version : String
  description : String
  variant : String
  installed : Bool
deriving DecidableEq

/-- `NephyraPrefs` (kernel_check.rs): the persisted preference record.
Its only fields are `preferred_kernel`, `gpu_type` and `use_cases`. -/
structure NephyraPrefs where
  preferred_kernel : Option String
  gpu_type : Option String
  use_cases : List String
deriving DecidableEq

/-- `DetailedKernelInfo` (kernel_check.rs): parsed package metadata
returned by the pacman queries. -/
structure DetailedKernelInfo where
  name : String
  version : String
  description : String
  architecture : String
  url : String
  licenses : List String
  provides : List String
  depends : List String
  conflicts : List String
  replaces : List String
  install_date : Option String
  build_date : Option String
  install_reason : Option String
  validated_by : Option String

/-- `detect_kernel_variant` (kernel_check.rs): case-insensitive substring
tests over the kernel name, in the source's priority order. -/
def detect_kernel_variant (name : String) : String :=
  let lower := lowerStr name
  if strContains lower "rt" || strContains lower "real" then "Real-Time"
  else if strContains lower "lts" then "LTS"
  else if strContains lower "zen" then "Zen"
  else if strContains lower "hardened" then "Hardened"
  else if strContains lower "mainline" then "Mainline"
  else "Standard"

/-- `kernel_package_name` (kernel_check.rs): `"linux-"` plus the suffix of
the kernel identifier starting at its first alphabetic character, or the
whole identifier if it has no alphabetic character. -/
def kernel_package_name (kernel_version : String) : String :=
  let suffix := kernel_version.data.dropWhile fun c => !c.isAlpha
  if suffix.isEmpty then "linux-" ++ kernel_version
  else "linux-" ++ String.mk suffix

/-- One line of `parse_pacman_kernel_list` (kernel_check.rs): two
whitespace-separated tokens `repo/name` and `version`, the rest joined as
the description with `"[installed]"` removed and the result trimmed. -/
def parseKernelLine (line : String) : Option KernelRepoInfo :=
  match splitWs line with
  | repoName :: version :: rest =>
    match splitOnChar '/' repoName with
    | [repo, name] =>
      let desc := trimStr (strReplaceEmpty (joinSep " " rest) "[installed]")
      some { name := name, version := version, description := desc, repo := repo }
    | _ => none
  | _ => none

/-- `parse_pacman_kernel_list` (kernel_check.rs). -/
def parse_pacman_kernel_list (out : String) : List KernelRepoInfo :=
  (splitOnChar '\n' out).filterMap parseKernelLine

example : detect_kernel_variant "linux-lts" = "LTS" := by decide
example : detect_kernel_variant "linux-real" = "Real-Time" := by decide
example : kernel_package_name "6.15.2-2-cachyos-eevdf-lto" = "linux-cachyos-eevdf-lto" := by decide
example :
    parseKernelLine "system/linux 6.15.2.artix1-1 The Linux kernel and modules" =
      some ⟨"linux", "6.15.2.artix1-1", "The Linux kernel and modules", "system"⟩ := by decide

/-! ## Scoring engine (`score_and_reason_kernel`, kernel_check.rs)

The source mutates four independent accumulators (`score`, `reasons`,
`warn`, `needs_headers`) through a fixed rule sequence; no rule reads
another accumulator, so each accumulator is embedded as its own function
over the same rule conditions, and `score_and_reason_kernel` assembles
them exactly as the source's final lines do. -/

/-- `let dev_selected = ...` in `score_and_reason_kernel`. -/
def devSelected (use_cases : List String) : Bool :=
  use_cases.any fun c =>
    strContains (lowerStr c) "dev" || strContains (lowerStr c) "programming"

/-- `let amd_intel_gpu = ...` in `score_and_reason_kernel`. -/
def amdIntelGpu (gpu_type : Option String) : Bool :=
  match gpu_type with
  | some g =>
    strContains (lowerStr g) "integrated" || strContains (lowerStr g) "amd" ||
      strContains (lowerStr g) "intel"
  | none => false

/-- `let is_zen = ...` (lowered name or description contains "zen"). -/
def isZenK (k : KernelRepoInfo) : Bool :=
  strContains (lowerStr k.name) "zen" || strContains (lowerStr k.description) "zen"

/-- `let is_eevdf = ...`. -/
def isEevdfK (k : KernelRepoInfo) : Bool :=
  strContains (lowerStr k.name) "eevdf" || strContains (lowerStr k.description) "eevdf"

/-- `let is_lts = ...`. -/
def isLtsK (k : KernelRepoInfo) : Bool :=
  strContains (lowerStr k.name) "lts" || strContains (lowerStr k.description) "lts"

/-- `let is_rt = ...`. -/
def isRtK (k : KernelRepoInfo) : Bool :=
  strContains (lowerStr k.name) "rt" || strContains (lowerStr k.description) "rt"

/-- `let is_hardened = ...`. -/
def isHardenedK (k : KernelRepoInfo) : Bool :=
  strContains (lowerStr k.name) "hardened" ||
    strContains (lowerStr k.description) "hardened"

/-- `let is_standard = ...` (name equals "linux" or description mentions
"standard"). -/
def isStandardK (k : KernelRepoInfo) : Bool :=
  lowerStr k.name == "linux" || strContains (lowerStr k.description) "standard"

/-- Use-case check of rule 3: any use case containing "gaming" or "desktop". -/
def gamingDesktopUC (use_cases : List String) : Bool :=
  use_cases.any fun c =>
    strContains (lowerStr c) "gaming" || strContains (lowerStr c) "desktop"

/-- Use-case check of rule 4: any use case containing "server" or "battery". -/
def serverBatteryUC (use_cases : List String) : Bool :=
  use_cases.any fun c =>
    strContains (lowerStr c) "server" || strContains (lowerStr c) "battery"

/-- Use-case check of rule 5: any use case containing "audio". -/
def audioUC (use_cases : List String) : Bool :=
  use_cases.any fun c => strContains (lowerStr c) "audio"

/-- Use-case check of rule 6: any use case containing "security". -/
def securityUC (use_cases : List String) : Bool :=
  use_cases.any fun c => strContains (lowerStr c) "security"

/-- Use-case check of rule 7: any use case containing "desktop" or "server". -/
def desktopServerUC (use_cases : List String) : Bool :=
  use_cases.any fun c =>
    strContains (lowerStr c) "desktop" || strContains (lowerStr c) "server"

/-- Rule-1 condition: the lowered candidate name contains some entry of the
problematic denylist (the entry itself is compared verbatim, not lowered). -/
def probHit (k : KernelRepoInfo) (prev_problematic : List String) : Bool :=
  prev_problematic.any fun p => strContains (lowerStr k.name) p

def probWarn : String := "You previously marked this kernel as problematic."
def zenWarn : String :=
  "Zen kernel is known to cause overheating on AMD/Intel GPUs and laptops. CachyOS EEVDF LTO is preferred for your setup."
def eevdfReason : String :=
  "CachyOS EEVDF is highly recommended for desktop/gaming/development on AMD/Intel GPUs due to its scheduler and thermal profile."
def ltsReason : String :=
  "LTS kernel is preferred for server and battery life due to stability."
def rtReason : String := "RT kernel is best for audio/production work."
def rtWarn : String :=
  "RT kernel is not recommended unless you need low-latency audio/production."
def hardenedReason : String := "Hardened kernel is best for security-focused systems."
def hardenedWarn : String :=
  "Hardened kernel is not recommended unless you need extra security."
def standardReason : String := "Standard kernel is a safe choice for most users."
def nvidiaWarn : String :=
  "Avoid Zen/RT/Hardened kernels with NVIDIA drivers. Use LTS or Standard."
def noAdvantageReason : String :=
  "No special advantages detected for your use case/hardware."
def headersNote : String :=
  "\nNOTE: For development/programming, kernel headers are required. If missing, install with your package manager."

/-- The `score` accumulator of `score_and_reason_kernel`: each rule's
score update in the source's order. -/
def kernelScore (k : KernelRepoInfo) (use_cases : List String)
    (gpu_type : Option String) (nvidia audio : Bool)
    (prev_problematic : List String) : Int :=
  let s : Int := 0
  let s := if probHit k prev_problematic then s - 10 else s
  let s := if isZenK k && amdIntelGpu gpu_type then s - 4 else s
  let s := if isEevdfK k && (devSelected use_cases || gamingDesktopUC use_cases)
      && amdIntelGpu gpu_type then s + 6 else s
  let s := if isLtsK k && serverBatteryUC use_cases then s + 4 else s
  let s := if isRtK k && audioUC use_cases then s + 5
    else if isRtK k then s - 2 else s
  let s := if isHardenedK k && securityUC use_cases then s + 4
    else if isHardenedK k then s - 2 else s
  let s := if isStandardK k && desktopServerUC use_cases then s + 2 else s
  let s := if nvidia && (isZenK k || isRtK k || isHardenedK k) then s - 6 else s
  let s := if audio && isRtK k then s + 2 else s
  s

/-- The `reasons` accumulator of `score_and_reason_kernel`: pushes in the
source's order (rules 3, 4, 5, 6, 7). -/
def kernelReasons (k : KernelRepoInfo) (use_cases : List String)
    (gpu_type : Option String) : List String :=
  let r : List String := []
  let r := if isEevdfK k && (devSelected use_cases || gamingDesktopUC use_cases)
      && amdIntelGpu gpu_type then r ++ [eevdfReason] else r
  let r := if isLtsK k && serverBatteryUC use_cases then r ++ [ltsReason] else r
  let r := if isRtK k && audioUC use_cases then r ++ [rtReason] else r
  let r := if isHardenedK k && securityUC use_cases then r ++ [hardenedReason] else r
  let r := if isStandardK k && desktopServerUC use_cases then r ++ [standardReason] else r
  r

/-- The `warn` accumulator of `score_and_reason_kernel`: overwritten (not
accumulated) by rules 1, 2, 5-else, 6-else and 8, in the source's order. -/
def kernelWarn (k : KernelRepoInfo) (use_cases : List String)
    (gpu_type : Option String) (nvidia : Bool)
    (prev_problematic : List String) : Option String :=
  let w : Option String := none
  let w := if probHit k prev_problematic then some probWarn else w
  let w := if isZenK k && amdIntelGpu gpu_type then some zenWarn else w
  let w := if isRtK k && audioUC use_cases then w
    else if isRtK k then some rtWarn else w
  let w := if isHardenedK k && securityUC use_cases then w
    else if isHardenedK k then some hardenedWarn else w
  let w := if nvidia && (isZenK k || isRtK k || isHardenedK k) then some nvidiaWarn else w
  w

/-- The `needs_headers` flag of `score_and_reason_kernel`. -/
def kernelNeedsHeaders (use_cases : List String) : Bool := devSelected use_cases

/-- `score_and_reason_kernel` (kernel_check.rs): score plus the explanation
string assembled exactly as in the source (joined reasons, defaulted when
empty, then the surviving warning, then the headers note). -/
def score_and_reason_kernel (k : KernelRepoInfo) (use_cases : List String)
    (gpu_type : Option String) (nvidia audio : Bool)
    (prev_problematic : List String) : Int × String :=
  let reasons := kernelReasons k use_cases gpu_type
  let reasons := if reasons.isEmpty then [noAdvantageReason] else reasons
  let reason_str := joinSep " " reasons
  let reason_str :=
    match kernelWarn k use_cases gpu_type nvidia prev_problematic with
    | some w => reason_str ++ " WARNING: " ++ w
    | none => reason_str
  let reason_str :=
    if kernelNeedsHeaders use_cases then reason_str ++ headersNote else reason_str
  (kernelScore k use_cases gpu_type nvidia audio prev_problematic, reason_str)

example :
    score_and_reason_kernel ⟨"linux", "", "The Linux kernel and modules", ""⟩
      ["desktop"] none false false [] =
      (2, "Standard kernel is a safe choice for most users.") := by decide
example :
    score_and_reason_kernel ⟨"linux-rt", "", "", ""⟩
      ["audio"] none false true [] =
      (7, "RT kernel is best for audio/production work.") := by decide
example :
    score_and_reason_kernel ⟨"linux-rt", "", "", ""⟩
      ["desktop"] none false false [] =
      (-2, "No special advantages detected for your use case/hardware. WARNING: RT kernel is not recommended unless you need low-latency audio/production.") := by decide

/-! ## The `run` flow (kernel_check.rs), as pure functions over an
explicit environment of probe results -/

/-- External inputs of one `run` invocation: probe results, the loaded
preference record, and the pacman metadata oracle (`pkgQuery installed
name` models `DetailedKernelInfo::from_installed_pacman` /
`::from_pacman`). -/
structure Env where
  moduleDirs : List String
  currentKernel : String
  packageManager : Option String
  detectedGpu : Option String
  detectedUseCases : List String
  nvidia : Bool
  audio : Bool
  prefs0 : NephyraPrefs
  pkgQuery : Bool → String → Option DetailedKernelInfo

/-- The preference merge step of `run`: detected values are used only when
the record's `gpu_type` is absent / `use_cases` is empty. -/
def mergePrefs (prefs : NephyraPrefs) (detected_gpu : Option String)
    (detected_use_cases : List String) : NephyraPrefs :=
  let prefs := if prefs.gpu_type.isNone then
    { prefs with gpu_type := detected_gpu } else prefs
  let prefs := if prefs.use_cases.isEmpty then
    { prefs with use_cases := detected_use_cases } else prefs
  prefs

def runPrefs (e : Env) : NephyraPrefs :=
  mergePrefs e.prefs0 e.detectedGpu e.detectedUseCases

/-- Installed-kernel enumeration of `run`: one entry per `/lib/modules`
subdirectory; `installed` is set to `name == current_kernel`. -/
def mkInstalledKernels (dirs : List String) (current : String) : List KernelInfo :=
  dirs.map fun name =>
    { name := name, version := "", description := "",
      variant := detect_kernel_variant name, installed := name == current }

/-- `analyze_kernel_details` (kernel_check.rs): cumulative description
annotations and last-write-wins variant overrides. -/
def analyze_kernel_details (k : KernelInfo) (details : DetailedKernelInfo) :
    KernelInfo :=
  let k := if details.depends.any (fun d => strContains d "nvidia") then
    { k with description := k.description ++ " (Includes NVIDIA support)" } else k
  let k := if details.provides.any (fun p => strContains p "virtualbox-guest-modules") then
    { k with description := k.description ++ " (VirtualBox guest support)" } else k
  let k := if details.conflicts.any (fun c => strContains c "linux-rt") then
    { k with variant := "Real-Time" } else k
  let k := if strContains (lowerStr details.description) "hardened" ||
      details.provides.any (fun p => strContains p "hardened") then
    { k with variant := "Hardened" } else k
  let k := if strContains (lowerStr details.description) "zen" ||
      details.provides.any (fun p => strContains p "zen") then
    { k with variant := "Zen" } else k
  match details.build_date with
  | some bd => { k with description := k.description ++ " (Built: " ++ bd ++ ")" }
  | none => k

/-- `enhance_kernel_info` (kernel_check.rs): only acts when the package
manager is pacman and the metadata query answers. -/
def enhance_kernel_info (pm : Option String)
    (q : Bool → String → Option DetailedKernelInfo) (k : KernelInfo) : KernelInfo :=
  if pm == some "pacman" then
    match q k.installed k.name with
    | some details =>
      let k1 := if k.description == "" then
        { k with description := details.description } else k
      analyze_kernel_details k1 details
    | none => k
  else k

def runInstalled (e : Env) : List KernelInfo :=
  (mkInstalledKernels e.moduleDirs e.currentKernel).map
    (enhance_kernel_info e.packageManager e.pkgQuery)

/-- The hard-coded pacman search output embedded in `run`
(`let pacman_output = r#"..."#`). -/
def pacmanOutput : String :=
  "\ncachyos-v3/linux-cachyos-eevdf-lto 6.15.3-1 [installed] The Linux EEVDF scheduler + Cachy Sauce Kernel by CachyOS with other patches and improvements kernel and modules\nsystem/linux 6.15.2.artix1-1 The Linux kernel and modules\nsystem/linux-lts 6.12.32-1 The LTS Linux kernel and modules\ngalaxy/linux-hardened 6.14.9.hardened1-1 The Security-Hardened Linux kernel and modules\ngalaxy/linux-rt 6.14.0.rt3.artix1-1 The Linux RT kernel and modules\ngalaxy/linux-zen 6.15.2.zen1-1 The Linux ZEN kernel and modules\n"

def availableKernels : List KernelRepoInfo := parse_pacman_kernel_list pacmanOutput

/-- The available-candidate construction of `run` (lines 677-687):
variant from the name, `installed` from membership in the installed list,
then enhancement. -/
def runAvailableInfos (e : Env) : List KernelInfo :=
  availableKernels.map fun k =>
    enhance_kernel_info e.packageManager e.pkgQuery
      { name := k.name, version := k.version, description := k.description,
        variant := detect_kernel_variant k.name,
        installed := (runInstalled e).any fun ik => ik.name == k.name }

/-- The catalog union of `run` (lines 688-693): an available entry is
appended only when no already-collected entry shares its name. -/
def catalogUnion (installed : List KernelInfo) : List KernelInfo → List KernelInfo
  | [] => installed
  | k :: ks =>
    if installed.any (fun ik => ik.name == k.name) then catalogUnion installed ks
    else catalogUnion (installed ++ [k]) ks

def runAllKernels (e : Env) : List KernelInfo :=
  catalogUnion (runInstalled e) (runAvailableInfos e)

/-- The `KernelRepoInfo` reconstruction at the scoring call site
(lines 696-701). -/
def toRepoInfo (k : KernelInfo) : KernelRepoInfo :=
  { name := k.name, version := k.version, description := k.description, repo := "" }

abbrev ScoredKernel := KernelInfo × Int × String

/-- The scoring pass of `run` (lines 694-703): note the denylist argument
is the literal empty vector `prev_problematic`. -/
def runScored (e : Env) : List ScoredKernel :=
  (runAllKernels e).map fun k =>
    (k, score_and_reason_kernel (toRepoInfo k) (runPrefs e).use_cases
      (runPrefs e).gpu_type e.nvidia e.audio [])

/-- One insertion step of a stable descending sort by score: the new
element goes after every strictly higher score and before the first score
not above it, so equal scores keep their original relative order. -/
def insertDesc (x : ScoredKernel) : List ScoredKernel → List ScoredKernel
  | [] => [x]
  | y :: ys => if y.2.1 > x.2.1 then y :: insertDesc x ys else x :: y :: ys

/-- `top_kernels.sort_by(|a, b| b.1.cmp(&a.1))` (line 705): Rust's
`sort_by` is a stable sort, here modelled by stable insertion sort with
the same (descending score) order. -/
def sortScoredDesc (l : List ScoredKernel) : List ScoredKernel :=
  l.foldr insertDesc []

def runRanked (e : Env) : List ScoredKernel := sortScoredDesc (runScored e)

def runTop3 (e : Env) : List ScoredKernel := (runRanked e).take 3

/-- `needs_headers_pkg` (line 706). -/
def needsHeadersPkg (use_cases : List String) : Bool :=
  use_cases.any fun c =>
    strContains (lowerStr c) "dev" || strContains (lowerStr c) "server"

/-- The install command synthesized for a recommendation (lines 712-721). -/
def installCommand (pm : String) (k : KernelInfo) (use_cases : List String) :
    String :=
  let pkg_base := if strStarts k.name "linux-" then k.name
    else kernel_package_name k.name
  if needsHeadersPkg use_cases then
    "sudo " ++ pm ++ " -S " ++ pkg_base ++ " " ++ (pkg_base ++ "-headers")
  else
    "sudo " ++ pm ++ " -S " ++ pkg_base

/-- The install line printed per top-3 entry: only for a known package
manager and a non-installed candidate. -/
def runInstallLines (e : Env) : List (Option String) :=
  (runTop3 e).map fun x =>
    match e.packageManager with
    | some pm =>
      if x.1.installed then none
      else some (installCommand pm x.1 (runPrefs e).use_cases)
    | none => none

example :
    availableKernels.map (fun k => k.name) =
      ["linux-cachyos-eevdf-lto", "linux", "linux-lts", "linux-hardened",
        "linux-rt", "linux-zen"] := by decide

/-! ## Helper lemmas: enhancement preserves identity fields -/

theorem analyze_kernel_details_name (k : KernelInfo) (d : DetailedKernelInfo) :
    (analyze_kernel_details k d).name = k.name := by
  simp only [analyze_kernel_details]
  cases d.build_date <;> split_ifs <;> rfl

theorem analyze_kernel_details_installed (k : KernelInfo) (d : DetailedKernelInfo) :
    (analyze_kernel_details k d).installed = k.installed := by
  simp only [analyze_kernel_details]
  cases d.build_date <;> split_ifs <;> rfl

theorem enhance_kernel_info_name (pm : Option String)
    (q : Bool → String → Option DetailedKernelInfo) (k : KernelInfo) :
    (enhance_kernel_info pm q k).name = k.name := by
  simp only [enhance_kernel_info]
  split
  · cases hq : q k.installed k.name with
    | none => rfl
    | some d =>
      simp only
      rw [analyze_kernel_details_name]
      split_ifs <;> rfl
  · rfl

theorem enhance_kernel_info_installed (pm : Option String)
    (q : Bool → String → Option DetailedKernelInfo) (k : KernelInfo) :
    (enhance_kernel_info pm q k).installed = k.installed := by
  simp only [enhance_kernel_info]
  split
  · cases hq : q k.installed k.name with
    | none => rfl
    | some d =>
      simp only
      rw [analyze_kernel_details_installed]
      split_ifs <;> rfl
  · rfl

theorem runInstalled_names (e : Env) :
    (runInstalled e).map (fun k => k.name) = e.moduleDirs := by
  simp only [runInstalled, mkInstalledKernels, List.map_map]
  induction e.moduleDirs with
  | nil => rfl
  | cons d ds ih =>
    simp only [List.map_cons, Function.comp_apply, enhance_kernel_info_name, ih]

theorem mem_runInstalled (e : Env) (k : KernelInfo) (h : k ∈ runInstalled e) :
    k.name ∈ e.moduleDirs ∧ k.installed = (k.name == e.currentKernel) := by
  simp only [runInstalled, mkInstalledKernels, List.map_map, List.mem_map] at h
  obtain ⟨n, hn, hk⟩ := h
  subst hk
  constructor
  · simpa [Function.comp, enhance_kernel_info_name] using hn
  · simp [Function.comp, enhance_kernel_info_name, enhance_kernel_info_installed]

/-! ## Helper lemmas: catalog union -/

theorem catalogUnion_filter (avail : List KernelInfo) :
    ∀ (inst : List KernelInfo) (n : String),
      inst.any (fun ik => ik.name == n) = true →
      (catalogUnion inst avail).filter (fun k => k.name == n) =
        inst.filter (fun k => k.name == n) := by
  induction avail with
  | nil => intro inst n _; rfl
  | cons a as ih =>
    intro inst n h
    simp only [catalogUnion]
    split_ifs with ha
    · exact ih inst n h
    · have han : (a.name == n) = false := by
        rw [beq_eq_false_iff_ne]
        intro hcontra
        rw [List.any_eq_true] at h
        obtain ⟨ik, hik, hikn⟩ := h
        have : inst.any (fun ik => ik.name == a.name) = true := by
          rw [List.any_eq_true]
          exact ⟨ik, hik, by rw [beq_iff_eq] at hikn ⊢; rw [hikn, hcontra]⟩
        rw [this] at ha; exact absurd rfl ha
      rw [ih (inst ++ [a]) n (by rw [List.any_append]; simp [h])]
      rw [List.filter_append]
      simp [List.filter_cons, han]

theorem catalogUnion_names_nodup (avail : List KernelInfo) :
    ∀ inst : List KernelInfo,
      (inst.map (fun k => k.name)).Nodup →
      ((catalogUnion inst avail).map (fun k => k.name)).Nodup := by
  induction avail with
  | nil => intro inst h; exact h
  | cons a as ih =>
    intro inst h
    simp only [catalogUnion]
    split_ifs with ha
    · exact ih inst h
    · apply ih
      rw [List.map_append, List.map_cons, List.map_nil]
      rw [List.nodup_append]
      refine ⟨h, List.nodup_singleton _, ?_⟩
      intro x hx hxa
      rw [List.mem_singleton] at hxa
      subst hxa
      rw [List.mem_map] at hx
      obtain ⟨ik, hik, hikn⟩ := hx
      have : inst.any (fun ik => ik.name == a.name) = true := by
        rw [List.any_eq_true]
        exact ⟨ik, hik, by rw [beq_iff_eq]; exact hikn⟩
      rw [this] at ha; exact absurd rfl ha

theorem mem_catalogUnion (avail : List KernelInfo) :
    ∀ (inst : List KernelInfo) (k : KernelInfo),
      k ∈ catalogUnion inst avail → k ∈ inst ∨ k ∈ avail := by
  induction avail with
  | nil => intro inst k h; exact Or.inl h
  | cons a as ih =>
    intro inst k h
    simp only [catalogUnion] at h
    split_ifs at h with ha
    · rcases ih inst k h with h' | h'
      · exact Or.inl h'
      · exact Or.inr (List.mem_cons_of_mem a h')
    · rcases ih (inst ++ [a]) k h with h' | h'
      · rw [List.mem_append, List.mem_singleton] at h'
        rcases h' with h' | h'
        · exact Or.inl h'
        · exact Or.inr (h' ▸ List.mem_cons_self a as)
      · exact Or.inr (List.mem_cons_of_mem a h')


/-! ## Helper lemmas: the stable descending sort -/

theorem insertDesc_perm (x : ScoredKernel) (l : List ScoredKernel) :
    List.Perm (insertDesc x l) (x :: l) := by
  induction l with
  | nil => rfl
  | cons y ys ih =>
    simp only [insertDesc]
    split_ifs
    · exact (ih.cons y).trans (List.Perm.swap x y ys)
    · rfl

theorem mem_insertDesc (x z : ScoredKernel) (l : List ScoredKernel) :
    z ∈ insertDesc x l ↔ z = x ∨ z ∈ l := by
  rw [(insertDesc_perm x l).mem_iff, List.mem_cons]

theorem sortScoredDesc_perm (l : List ScoredKernel) :
    List.Perm (sortScoredDesc l) l := by
  induction l with
  | nil => rfl
  | cons x xs ih =>
    simp only [sortScoredDesc, List.foldr_cons] at *
    exact (insertDesc_perm x _).trans (ih.cons x)

theorem insertDesc_pairwise (x : ScoredKernel) (l : List ScoredKernel)
    (h : l.Pairwise (fun a b => b.2.1 ≤ a.2.1)) :
    (insertDesc x l).Pairwise (fun a b => b.2.1 ≤ a.2.1) := by
  induction l with
  | nil => simp [insertDesc]
  | cons y ys ih =>
    rw [List.pairwise_cons] at h
    obtain ⟨hy, hys⟩ := h
    simp only [insertDesc]
    split_ifs with hgt
    · rw [List.pairwise_cons]
      refine ⟨?_, ih hys⟩
      intro z hz
      rw [mem_insertDesc] at hz
      rcases hz with rfl | hz
      · exact le_of_lt hgt
      · exact hy z hz
    · rw [List.pairwise_cons]
      refine ⟨?_, List.Pairwise.cons hy hys⟩
      intro z hz
      rw [List.mem_cons] at hz
      rcases hz with rfl | hz
      · exact le_of_not_lt hgt
      · exact le_trans (hy z hz) (le_of_not_lt hgt)

theorem sortScoredDesc_pairwise (l : List ScoredKernel) :
    (sortScoredDesc l).Pairwise (fun a b => b.2.1 ≤ a.2.1) := by
  induction l with
  | nil => simp [sortScoredDesc]
  | cons x xs ih =>
    simp only [sortScoredDesc, List.foldr_cons] at *
    exact insertDesc_pairwise x _ ih

theorem insertDesc_filter (x : ScoredKernel) (l : List ScoredKernel) (s : Int) :
    (insertDesc x l).filter (fun z => z.2.1 == s) =
      if x.2.1 = s then x :: l.filter (fun z => z.2.1 == s)
      else l.filter (fun z => z.2.1 == s) := by
  induction l with
  | nil =>
    simp only [insertDesc, List.filter_nil]
    by_cases hx : x.2.1 = s <;> simp [List.filter_cons, hx]
  | cons y ys ih =>
    simp only [insertDesc]
    by_cases hgt : y.2.1 > x.2.1
    · rw [if_pos hgt]
      by_cases hx : x.2.1 = s
      · have hy : ¬(y.2.1 = s) := by omega
        simp [List.filter_cons, ih, hx, hy]
      · simp [List.filter_cons, ih, hx]
    · rw [if_neg hgt]
      by_cases hx : x.2.1 = s <;> simp [List.filter_cons, hx]

theorem sortScoredDesc_filter (l : List ScoredKernel) (s : Int) :
    (sortScoredDesc l).filter (fun z => z.2.1 == s) =
      l.filter (fun z => z.2.1 == s) := by
  induction l with
  | nil => rfl
  | cons x xs ih =>
    simp only [sortScoredDesc, List.foldr_cons] at *
    rw [insertDesc_filter]
    by_cases hx : x.2.1 = s <;> simp [List.filter_cons, hx, ih]

/-! ## Helper lemmas: scoring decomposition -/

/-- The score as an explicit sum of per-rule contributions (same
conditions, same order, as `kernelScore`). -/
def scoreTerms (k : KernelRepoInfo) (use_cases : List String)
    (gpu_type : Option String) (nvidia audio : Bool)
    (prev_problematic : List String) : Int :=
  (if probHit k prev_problematic then -10 else 0)
  + (if isZenK k && amdIntelGpu gpu_type then -4 else 0)
  + (if isEevdfK k && (devSelected use_cases || gamingDesktopUC use_cases)
      && amdIntelGpu gpu_type then 6 else 0)
  + (if isLtsK k && serverBatteryUC use_cases then 4 else 0)
  + (if isRtK k && audioUC use_cases then 5 else if isRtK k then -2 else 0)
  + (if isHardenedK k && securityUC use_cases then 4
    else if isHardenedK k then -2 else 0)
  + (if isStandardK k && desktopServerUC use_cases then 2 else 0)
  + (if nvidia && (isZenK k || isRtK k || isHardenedK k) then -6 else 0)
  + (if audio && isRtK k then 2 else 0)

theorem ite2_shift (c1 c2 : Prop) [Decidable c1] [Decidable c2] (s d1 d2 : Int) :
    (if c1 then s + d1 else if c2 then s - d2 else s)
      = s + (if c1 then d1 else if c2 then -d2 else 0) := by
  split_ifs <;> omega

theorem ite_add_shift (c : Prop) [Decidable c] (s d : Int) :
    (if c then s + d else s) = s + (if c then d else 0) := by
  split_ifs <;> omega

theorem ite_sub_shift (c : Prop) [Decidable c] (s d : Int) :
    (if c then s - d else s) = s + (if c then -d else 0) := by
  split_ifs <;> omega

theorem kernelScore_eq_terms (k : KernelRepoInfo) (use_cases : List String)
    (gpu_type : Option String) (nvidia audio : Bool)
    (prev_problematic : List String) :
    kernelScore k use_cases gpu_type nvidia audio prev_problematic =
      scoreTerms k use_cases gpu_type nvidia audio prev_problematic := by
  unfold kernelScore scoreTerms
  simp only [ite2_shift]
  simp only [ite_add_shift, ite_sub_shift, zero_add]

/-! ## Helper lemmas: the surviving warning -/

/-- The claim's reading of the warning slot: since rules overwrite `warn`,
only the LAST triggered warning-producing rule (in source order
problematic, Zen, RT-else, Hardened-else, NVIDIA) survives; equivalently,
first match of the reversed order. -/
def lastTriggeredWarning (k : KernelRepoInfo) (use_cases : List String)
    (gpu_type : Option String) (nvidia : Bool)
    (prev_problematic : List String) : Option String :=
  if nvidia && (isZenK k || isRtK k || isHardenedK k) then some nvidiaWarn
  else if isHardenedK k && !securityUC use_cases then some hardenedWarn
  else if isRtK k && !audioUC use_cases then some rtWarn
  else if isZenK k && amdIntelGpu gpu_type then some zenWarn
  else if probHit k prev_problematic then some probWarn
  else none

theorem kernelWarn_eq_lastTriggered (k : KernelRepoInfo)
    (use_cases : List String) (gpu_type : Option String) (nvidia : Bool)
    (prev_problematic : List String) :
    kernelWarn k use_cases gpu_type nvidia prev_problematic =
      lastTriggeredWarning k use_cases gpu_type nvidia prev_problematic := by
  unfold kernelWarn lastTriggeredWarning
  cases hp : probHit k prev_problematic <;>
    cases hz : isZenK k <;>
    cases hg : amdIntelGpu gpu_type <;>
    cases hr : isRtK k <;>
    cases ha : audioUC use_cases <;>
    cases hh : isHardenedK k <;>
    cases hs : securityUC use_cases <;>
    cases nvidia <;>
    simp

/-- The explanation as the spec describes it: joined reasons (defaulted
when none fired), then `" WARNING: <warning>"` for the single surviving
(last-triggered) warning, then the headers note. -/
def explanationSpec (k : KernelRepoInfo) (use_cases : List String)
    (gpu_type : Option String) (nvidia : Bool)
    (prev_problematic : List String) : String :=
  let reasons := kernelReasons k use_cases gpu_type
  let reasons := if reasons.isEmpty then [noAdvantageReason] else reasons
  let s := joinSep " " reasons
  let s := match lastTriggeredWarning k use_cases gpu_type nvidia prev_problematic with
    | some w => s ++ " WARNING: " ++ w
    | none => s
  if kernelNeedsHeaders use_cases then s ++ headersNote else s

/-- C1: for every kernel candidate and context, the scoring function's
explanation is the joined reasons, then — because the warning slot is
overwritten, not accumulated, by the rules in their listed order
(problematic, Zen-on-AMD/Intel, RT-without-audio, Hardened-without-
security, NVIDIA-with-Zen/RT/Hardened) — exactly the last triggered
warning appended once as `" WARNING: <warning>"`, then the headers note
when `needs_headers` was set. -/
theorem C1_warning_last_write_wins (k : KernelRepoInfo)
    (use_cases : List String) (gpu_type : Option String) (nvidia audio : Bool)
    (prev_problematic : List String) :
    (score_and_reason_kernel k use_cases gpu_type nvidia audio prev_problematic).2 =
      explanationSpec k use_cases gpu_type nvidia prev_problematic := by
  unfold score_and_reason_kernel explanationSpec
  rw [kernelWarn_eq_lastTriggered]

/-- C7: the preference merge step (gpu from detection only if absent,
use-cases from inference only if empty) is idempotent: applying it twice
with the same detected values equals applying it once. -/
theorem C7_merge_idempotent (p : NephyraPrefs) (g : Option String)
    (u : List String) :
    mergePrefs (mergePrefs p g u) g u = mergePrefs p g u := by
  rcases p with ⟨pk, pg, pu⟩
  rcases pg with _ | pg <;> rcases pu with _ | ⟨c, cs⟩ <;>
    rcases g with _ | g' <;> rcases u with _ | ⟨u1, us⟩ <;>
    simp [mergePrefs]

/-- C4: the ranking is a stable descending sort by score — the ranked
list is sorted by non-increasing score, is a permutation of the scored
list, and every equal-score class keeps its catalog insertion order
(installed entries before available ones, each in enumeration order). -/
theorem C4_stable_descending_sort (e : Env) :
    (runRanked e).Pairwise (fun a b => b.2.1 ≤ a.2.1) ∧
    List.Perm (runRanked e) (runScored e) ∧
    ∀ s : Int, (runRanked e).filter (fun z => z.2.1 == s) =
      (runScored e).filter (fun z => z.2.1 == s) :=
  ⟨sortScoredDesc_pairwise (runScored e), sortScoredDesc_perm (runScored e),
    fun s => sortScoredDesc_filter (runScored e) s⟩

/-! ## C9: the shipped flow never exercises the problematic-kernel rule -/

theorem probHit_nil (k : KernelRepoInfo) : probHit k [] = false := rfl

/-- `kernelScore` with the rule-1 (problematic denylist) branch deleted. -/
def kernelScoreNoProb (k : KernelRepoInfo) (use_cases : List String)
    (gpu_type : Option String) (nvidia audio : Bool) : Int :=
  let s : Int := 0
  let s := if isZenK k && amdIntelGpu gpu_type then s - 4 else s
  let s := if isEevdfK k && (devSelected use_cases || gamingDesktopUC use_cases)
      && amdIntelGpu gpu_type then s + 6 else s
  let s := if isLtsK k && serverBatteryUC use_cases then s + 4 else s
  let s := if isRtK k && audioUC use_cases then s + 5
    else if isRtK k then s - 2 else s
  let s := if isHardenedK k && securityUC use_cases then s + 4
    else if isHardenedK k then s - 2 else s
  let s := if isStandardK k && desktopServerUC use_cases then s + 2 else s
  let s := if nvidia && (isZenK k || isRtK k || isHardenedK k) then s - 6 else s
  let s := if audio && isRtK k then s + 2 else s
  s

/-- `kernelWarn` with the rule-1 (problematic denylist) branch deleted. -/
def kernelWarnNoProb (k : KernelRepoInfo) (use_cases : List String)
    (gpu_type : Option String) (nvidia : Bool) : Option String :=
  let w : Option String := none
  let w := if isZenK k && amdIntelGpu gpu_type then some zenWarn else w
  let w := if isRtK k && audioUC use_cases then w
    else if isRtK k then some rtWarn else w
  let w := if isHardenedK k && securityUC use_cases then w
    else if isHardenedK k then some hardenedWarn else w
  let w := if nvidia && (isZenK k || isRtK k || isHardenedK k) then some nvidiaWarn else w
  w

/-- `score_and_reason_kernel` with the problematic-penalty rule deleted
entirely (no denylist argument). -/
def score_and_reason_kernel_noProb (k : KernelRepoInfo)
    (use_cases : List String) (gpu_type : Option String)
    (nvidia audio : Bool) : Int × String :=
  let reasons := kernelReasons k use_cases gpu_type
  let reasons := if reasons.isEmpty then [noAdvantageReason] else reasons
  let reason_str := joinSep " " reasons
  let reason_str :=
    match kernelWarnNoProb k use_cases gpu_type nvidia with
    | some w => reason_str ++ " WARNING: " ++ w
    | none => reason_str
  let reason_str :=
    if kernelNeedsHeaders use_cases then reason_str ++ headersNote else reason_str
  (kernelScoreNoProb k use_cases gpu_type nvidia audio, reason_str)

theorem score_nil_eq_noProb (k : KernelRepoInfo) (use_cases : List String)
    (gpu_type : Option String) (nvidia audio : Bool) :
    score_and_reason_kernel k use_cases gpu_type nvidia audio [] =
      score_and_reason_kernel_noProb k use_cases gpu_type nvidia audio := by
  unfold score_and_reason_kernel score_and_reason_kernel_noProb
    kernelScore kernelScoreNoProb kernelWarn kernelWarnNoProb
  simp only [probHit_nil, Bool.false_eq_true, if_false]

/-- C9: in every execution of the recommendation flow the denylist passed
to the scoring function is the literal empty list (the preference record
has no field that could populate it), so the -10 penalty branch and its
"previously marked problematic" warning never execute: the shipped
scoring pass coincides with the scoring code with that rule deleted. -/
theorem C9_denylist_always_empty (e : Env) :
    runScored e = (runAllKernels e).map fun k =>
      (k, score_and_reason_kernel_noProb (toRepoInfo k) (runPrefs e).use_cases
        (runPrefs e).gpu_type e.nvidia e.audio) := by
  unfold runScored
  exact List.map_congr_left fun k _ => by rw [score_nil_eq_noProb]

theorem score_fst (k : KernelRepoInfo) (use_cases : List String)
    (gpu_type : Option String) (nvidia audio : Bool)
    (prev_problematic : List String) :
    (score_and_reason_kernel k use_cases gpu_type nvidia audio prev_problematic).1 =
      kernelScore k use_cases gpu_type nvidia audio prev_problematic := rfl

/-- C10: the available-kernel listing is the fixed constant string
embedded in the program; parsing it yields exactly the six hard-coded
candidates (names, versions, descriptions), independent of any
package-manager query. -/
theorem C10_available_listing_constant :
    parse_pacman_kernel_list pacmanOutput =
      [⟨"linux-cachyos-eevdf-lto", "6.15.3-1",
          "The Linux EEVDF scheduler + Cachy Sauce Kernel by CachyOS with other patches and improvements kernel and modules",
          "cachyos-v3"⟩,
        ⟨"linux", "6.15.2.artix1-1", "The Linux kernel and modules", "system"⟩,
        ⟨"linux-lts", "6.12.32-1", "The LTS Linux kernel and modules", "system"⟩,
        ⟨"linux-hardened", "6.14.9.hardened1-1",
          "The Security-Hardened Linux kernel and modules", "galaxy"⟩,
        ⟨"linux-rt", "6.14.0.rt3.artix1-1", "The Linux RT kernel and modules",
          "galaxy"⟩,
        ⟨"linux-zen", "6.15.2.zen1-1", "The Linux ZEN kernel and modules",
          "galaxy"⟩] := by
  decide

/-- C5 counterexample: the denylist entry "LIN" is a substring of the
candidate name "LINux", yet the score is unchanged (not 10 lower),
because the code lowercases the candidate name but compares denylist
entries verbatim. -/
theorem C5_counterexample :
    strContains "LINux" "LIN" = true ∧
    (score_and_reason_kernel ⟨"LINux", "", "", ""⟩ [] none false false ["LIN"]).1 ≠
      (score_and_reason_kernel ⟨"LINux", "", "", ""⟩ [] none false false []).1 - 10 := by
  decide

/-- C5 (amended): if some entry of the denylist is contained in the
LOWERCASED candidate name, the score is exactly 10 less than the score of
the same candidate under the same context with an empty denylist. -/
theorem C5_problematic_penalty (k : KernelRepoInfo) (use_cases : List String)
    (gpu_type : Option String) (nvidia audio : Bool)
    (prev_problematic : List String)
    (h : probHit k prev_problematic = true) :
    (score_and_reason_kernel k use_cases gpu_type nvidia audio prev_problematic).1 =
      (score_and_reason_kernel k use_cases gpu_type nvidia audio []).1 - 10 := by
  rw [score_fst, score_fst, kernelScore_eq_terms, kernelScore_eq_terms]
  unfold scoreTerms
  rw [probHit_nil, h]
  simp only [Bool.false_eq_true, if_false, if_true]
  omega

/-- C5 witness: a concrete candidate and denylist where the penalty fires
and the score drops by exactly 10. -/
theorem C5_problematic_penalty_witness :
    probHit ⟨"linux-bad", "", "", ""⟩ ["bad"] = true ∧
    (score_and_reason_kernel ⟨"linux-bad", "", "", ""⟩ ["desktop"] none false false
        ["bad"]).1 =
      (score_and_reason_kernel ⟨"linux-bad", "", "", ""⟩ ["desktop"] none false false
        []).1 - 10 :=
  ⟨by decide,
    C5_problematic_penalty ⟨"linux-bad", "", "", ""⟩ ["desktop"] none false false
      ["bad"] (by decide)⟩

/-- C2 counterexample: the candidate "linux-real" has variant
`Real-Time` (its name contains "real"), the use cases contain "audio",
yet the scoring function gives it score 0 with the default explanation —
no +5 and no audio/production reason — because the scoring rule tests the
substring "rt" on name/description, not the variant. -/
theorem C2_counterexample :
    detect_kernel_variant "linux-real" = "Real-Time" ∧
    "audio" ∈ (["audio"] : List String) ∧
    (score_and_reason_kernel ⟨"linux-real", "", "", ""⟩ ["audio"] none false false
        []).1 = 0 ∧
    (score_and_reason_kernel ⟨"linux-real", "", "", ""⟩ ["audio"] none false false
        []).2 = "No special advantages detected for your use case/hardware." := by
  decide

/-- The contributions of all rules other than the RealTime rules
(rule 5 and the audio-hardware boost, rule 9). -/
def scoreNonRtTerms (k : KernelRepoInfo) (use_cases : List String)
    (gpu_type : Option String) (nvidia : Bool)
    (prev_problematic : List String) : Int :=
  (if probHit k prev_problematic then -10 else 0)
  + (if isZenK k && amdIntelGpu gpu_type then -4 else 0)
  + (if isEevdfK k && (devSelected use_cases || gamingDesktopUC use_cases)
      && amdIntelGpu gpu_type then 6 else 0)
  + (if isLtsK k && serverBatteryUC use_cases then 4 else 0)
  + (if isHardenedK k && securityUC use_cases then 4
    else if isHardenedK k then -2 else 0)
  + (if isStandardK k && desktopServerUC use_cases then 2 else 0)
  + (if nvidia && (isZenK k || isRtK k || isHardenedK k) then -6 else 0)

/-- C2 (amended): for every candidate satisfying the scoring function's
RT test (lowercased name or description contains "rt"): if some use case
contains "audio" (case-insensitively) the score is the other rules'
total plus 5 and the audio/production reason is emitted; otherwise it is
the other rules' total minus 2 and a warning is set (which a later rule
may overwrite); in both cases audio hardware adds a further stacking +2. -/
theorem C2_realtime_rule (k : KernelRepoInfo) (use_cases : List String)
    (gpu_type : Option String) (nvidia audio : Bool)
    (prev_problematic : List String) (hrt : isRtK k = true) :
    (score_and_reason_kernel k use_cases gpu_type nvidia audio prev_problematic).1 =
      scoreNonRtTerms k use_cases gpu_type nvidia prev_problematic
        + (if audioUC use_cases then 5 else -2)
        + (if audio then 2 else 0) ∧
    (audioUC use_cases = true →
      rtReason ∈ kernelReasons k use_cases gpu_type) ∧
    (audioUC use_cases = false →
      (kernelWarn k use_cases gpu_type nvidia prev_problematic).isSome = true) := by
  refine ⟨?_, ?_, ?_⟩
  · rw [score_fst, kernelScore_eq_terms]
    unfold scoreTerms scoreNonRtTerms
    rw [hrt]
    simp only [Bool.true_and, Bool.and_true, if_true]
    by_cases ha : audioUC use_cases = true
    · rw [ha]; simp only [if_true]; omega
    · rw [Bool.not_eq_true] at ha
      rw [ha]
      simp only [Bool.false_eq_true, if_false, if_true]
      omega
  · intro ha
    unfold kernelReasons
    rw [hrt, ha]
    simp only [Bool.true_and, if_true]
    split_ifs <;> simp
  · intro ha
    unfold kernelWarn
    rw [hrt, ha]
    simp only [Bool.true_and, Bool.and_false, Bool.false_eq_true, if_false, if_true]
    split_ifs <;> simp

/-- C2 witness: a concrete RT candidate with an audio use case and audio
hardware: the +5 and the stacking +2 both apply and the reason is
emitted. -/
theorem C2_realtime_rule_witness :
    (score_and_reason_kernel ⟨"linux-rt", "", "", ""⟩ ["audio"] none false true
        []).1 =
      scoreNonRtTerms ⟨"linux-rt", "", "", ""⟩ ["audio"] none false []
        + (if audioUC ["audio"] then 5 else -2)
        + (if true then 2 else 0) ∧
    (audioUC ["audio"] = true →
      rtReason ∈ kernelReasons ⟨"linux-rt", "", "", ""⟩ ["audio"] none) ∧
    (audioUC ["audio"] = false →
      (kernelWarn ⟨"linux-rt", "", "", ""⟩ ["audio"] none false []).isSome = true) :=
  C2_realtime_rule ⟨"linux-rt", "", "", ""⟩ ["audio"] none false true [] (by decide)

/-- C6: the catalog union never yields two entries with the same name:
for every combination of (duplicate-free) installed names and available
listing, `name` is a unique key of the result; in particular the full
run's candidate list has pairwise-distinct names. -/
theorem C6_catalog_name_unique (e : Env) (hd : e.moduleDirs.Nodup) :
    ((runAllKernels e).map (fun k => k.name)).Nodup ∧
    ∀ inst avail : List KernelInfo, (inst.map (fun k => k.name)).Nodup →
      ((catalogUnion inst avail).map (fun k => k.name)).Nodup := by
  constructor
  · unfold runAllKernels
    apply catalogUnion_names_nodup
    rw [runInstalled_names]
    exact hd
  · intro inst avail h
    exact catalogUnion_names_nodup avail inst h

/-- A concrete probe environment: one module-directory entry that is not
the running kernel, no package manager detected. -/
def envA : Env :=
  { moduleDirs := ["linux-lts"], currentKernel := "linux-zen",
    packageManager := none, detectedGpu := none,
    detectedUseCases := ["desktop"], nvidia := false, audio := false,
    prefs0 := ⟨none, none, ["desktop"]⟩, pkgQuery := fun _ _ => none }

/-- C6 witness: the concrete environment `envA` has duplicate-free module
directories and its catalog has pairwise-distinct names. -/
theorem C6_catalog_name_unique_witness :
    ((runAllKernels envA).map (fun k => k.name)).Nodup ∧
    ∀ inst avail : List KernelInfo, (inst.map (fun k => k.name)).Nodup →
      ((catalogUnion inst avail).map (fun k => k.name)).Nodup :=
  C6_catalog_name_unique envA (by decide)

theorem filter_name_length_one {α : Type} (f : α → String) (l : List α)
    (n : String) (hd : (l.map f).Nodup) (hn : n ∈ l.map f) :
    (l.filter (fun x => f x == n)).length = 1 := by
  induction l with
  | nil => simp at hn
  | cons a as ih =>
    rw [List.map_cons, List.nodup_cons] at hd
    obtain ⟨hfa, hd'⟩ := hd
    rw [List.map_cons, List.mem_cons] at hn
    rw [List.filter_cons]
    by_cases hfan : f a = n
    · subst hfan
      simp only [beq_self_eq_true, if_true]
      rw [List.length_cons]
      have hnil : as.filter (fun x => f x == f a) = [] := by
        rw [List.filter_eq_nil_iff]
        intro x hx
        simp only [beq_iff_eq]
        intro hcontra
        exact hfa (hcontra ▸ List.mem_map_of_mem f hx)
      rw [hnil]
      rfl
    · have hfalse : (f a == n) = false := by
        rw [beq_eq_false_iff_ne]; exact hfan
      rw [hfalse]
      simp only [Bool.false_eq_true, if_false]
      rcases hn with hn | hn
      · exact absurd hn.symm hfan
      · exact ih hd' hn

/-- C3 counterexample: with module directory entry "linux-lts" while the
running kernel is "linux-zen", the enumerated catalog entry carries
`installed = false` (the code sets `installed` to `name == current`, not
to `true`), and the single catalog entry for that name — which is also in
the available listing — is not installed. -/
theorem C3_counterexample :
    (mkInstalledKernels ["linux-lts"] "linux-zen").all (fun k => k.installed) =
      false ∧
    "linux-lts" ∈ availableKernels.map (fun k => k.name) ∧
    ((runAllKernels envA).filter (fun k => k.name == "linux-lts")).length = 1 ∧
    ((runAllKernels envA).filter (fun k => k.name == "linux-lts")).all
      (fun k => k.installed) = false := by
  decide

/-- C3 (amended): a module-directory catalog entry carries
`installed = true` exactly when its name equals the running kernel
identifier; and when a name is both enumerated from the module directory
(directories being duplicate-free) and present in the available listing,
the catalog contains exactly one entry for it, whose `installed` flag is
`name == currentKernel`. -/
theorem C3_installed_flag (e : Env) (n : String) (hd : e.moduleDirs.Nodup)
    (hn : n ∈ e.moduleDirs) (_hav : n ∈ availableKernels.map (fun k => k.name)) :
    (∀ k ∈ runInstalled e, k.installed = (k.name == e.currentKernel)) ∧
    ((runAllKernels e).filter (fun k => k.name == n)).length = 1 ∧
    ∀ k ∈ (runAllKernels e).filter (fun k => k.name == n),
      k.installed = (n == e.currentKernel) := by
  have hnames : (runInstalled e).map (fun k => k.name) = e.moduleDirs :=
    runInstalled_names e
  have hpresent : (runInstalled e).any (fun ik => ik.name == n) = true := by
    rw [List.any_eq_true]
    rw [← hnames] at hn
    rw [List.mem_map] at hn
    obtain ⟨k, hk, hkn⟩ := hn
    exact ⟨k, hk, by rw [beq_iff_eq]; exact hkn⟩
  have hfilter : (runAllKernels e).filter (fun k => k.name == n) =
      (runInstalled e).filter (fun k => k.name == n) := by
    unfold runAllKernels
    exact catalogUnion_filter (runAvailableInfos e) (runInstalled e) n hpresent
  refine ⟨?_, ?_, ?_⟩
  · intro k hk
    exact (mem_runInstalled e k hk).2
  · rw [hfilter]
    apply filter_name_length_one (fun k => k.name) (runInstalled e) n
    · rw [hnames]; exact hd
    · rw [hnames]; exact hn
  · intro k hk
    rw [hfilter] at hk
    rw [List.mem_filter] at hk
    obtain ⟨hkmem, hkname⟩ := hk
    rw [beq_iff_eq] at hkname
    rw [(mem_runInstalled e k hkmem).2, hkname]

/-- C3 witness: the amended statement evaluated in the concrete
environment `envA` at the name "linux-lts". -/
theorem C3_installed_flag_witness :
    (∀ k ∈ runInstalled envA, k.installed = (k.name == envA.currentKernel)) ∧
    ((runAllKernels envA).filter (fun k => k.name == "linux-lts")).length = 1 ∧
    ∀ k ∈ (runAllKernels envA).filter (fun k => k.name == "linux-lts"),
      k.installed = (("linux-lts" : String) == envA.currentKernel) :=
  C3_installed_flag envA "linux-lts" (by decide) (by decide) (by decide)

/-- C8 counterexample: with selected use cases `["servers"]` none of the
use cases IS "dev" or "server", yet the synthesized install command does
append the headers package, because the code tests case-insensitive
substring containment, not equality. -/
theorem C8_counterexample :
    ¬(("dev" : String) ∈ (["servers"] : List String) ∨
        ("server" : String) ∈ (["servers"] : List String)) ∧
    installCommand "pacman" ⟨"linux-lts", "", "", "LTS", false⟩ ["servers"] =
      "sudo pacman -S linux-lts linux-lts-headers" := by
  decide

/-- C8 (amended): for every non-installed candidate among the top 3 when
a package manager is known: the base package is the candidate name
verbatim when it starts with "linux-", and otherwise
`kernel_package_name` of it ("linux-" plus the suffix from the first
alphabetic character); the headers package `<base>-headers` is appended
exactly when some selected use case CONTAINS "dev" or "server"
case-insensitively; and that command is the rendered install line. -/
theorem C8_install_command (e : Env) (pm : String) (k : KernelInfo) (s : Int)
    (r : String) (hpm : e.packageManager = some pm)
    (hmem : (k, s, r) ∈ runTop3 e) (hinst : k.installed = false) :
    (strStarts k.name "linux-" = true →
      installCommand pm k (runPrefs e).use_cases =
        "sudo " ++ pm ++ " -S " ++ k.name ++
          (if needsHeadersPkg (runPrefs e).use_cases then
            " " ++ k.name ++ "-headers" else "")) ∧
    (strStarts k.name "linux-" = false →
      installCommand pm k (runPrefs e).use_cases =
        "sudo " ++ pm ++ " -S " ++ kernel_package_name k.name ++
          (if needsHeadersPkg (runPrefs e).use_cases then
            " " ++ kernel_package_name k.name ++ "-headers" else "")) ∧
    (needsHeadersPkg (runPrefs e).use_cases = true ↔
      ∃ c ∈ (runPrefs e).use_cases,
        strContains (lowerStr c) "dev" = true ∨
        strContains (lowerStr c) "server" = true) ∧
    some (installCommand pm k (runPrefs e).use_cases) ∈ runInstallLines e := by
  refine ⟨?_, ?_, ?_, ?_⟩
  · intro h
    unfold installCommand
    rw [h]
    by_cases hn : needsHeadersPkg (runPrefs e).use_cases = true <;>
      simp [hn, String.append_assoc]
  · intro h
    unfold installCommand
    rw [h]
    by_cases hn : needsHeadersPkg (runPrefs e).use_cases = true <;>
      simp [hn, String.append_assoc]
  · unfold needsHeadersPkg
    rw [List.any_eq_true]
    constructor
    · rintro ⟨c, hc, hor⟩
      rw [Bool.or_eq_true] at hor
      exact ⟨c, hc, hor⟩
    · rintro ⟨c, hc, hor⟩
      exact ⟨c, hc, by rw [Bool.or_eq_true]; exact hor⟩
  · simp only [runInstallLines, hpm]
    rw [List.mem_map]
    exact ⟨(k, s, r), hmem, by simp [hinst]⟩

/-- A concrete probe environment with pacman detected and no module
directories. -/
def envB : Env :=
  { moduleDirs := [], currentKernel := "6.15.3-1-cachyos",
    packageManager := some "pacman", detectedGpu := none,
    detectedUseCases := ["desktop"], nvidia := false, audio := false,
    prefs0 := ⟨none, none, ["desktop"]⟩, pkgQuery := fun _ _ => none }

/-- C8 witness: in `envB` the top-ranked candidate "linux" is not
installed and gets the install line `sudo pacman -S linux-linux` (its
name does not start with "linux-", and "desktop" contains neither "dev"
nor "server"). -/
theorem C8_install_command_witness :
    (strStarts "linux" "linux-" = true →
      installCommand "pacman"
          ⟨"linux", "6.15.2.artix1-1", "The Linux kernel and modules",
            "Standard", false⟩ (runPrefs envB).use_cases =
        "sudo " ++ "pacman" ++ " -S " ++ "linux" ++
          (if needsHeadersPkg (runPrefs envB).use_cases then
            " " ++ "linux" ++ "-headers" else "")) ∧
    (strStarts "linux" "linux-" = false →
      installCommand "pacman"
          ⟨"linux", "6.15.2.artix1-1", "The Linux kernel and modules",
            "Standard", false⟩ (runPrefs envB).use_cases =
        "sudo " ++ "pacman" ++ " -S " ++ kernel_package_name "linux" ++
          (if needsHeadersPkg (runPrefs envB).use_cases then
            " " ++ kernel_package_name "linux" ++ "-headers" else "")) ∧
    (needsHeadersPkg (runPrefs envB).use_cases = true ↔
      ∃ c ∈ (runPrefs envB).use_cases,
        strContains (lowerStr c) "dev" = true ∨
        strContains (lowerStr c) "server" = true) ∧
    some (installCommand "pacman"
        ⟨"linux", "6.15.2.artix1-1", "The Linux kernel and modules",
          "Standard", false⟩ (runPrefs envB).use_cases) ∈ runInstallLines envB :=
  C8_install_command envB "pacman"
    ⟨"linux", "6.15.2.artix1-1", "The Linux kernel and modules", "Standard", false⟩
    2 "Standard kernel is a safe choice for most users." rfl (by decide) rfl
